import Mathlib

/-!
Shallow embedding of `populate_database.py`: a script that populates a
two-table database (`entities`, `knowledge_graph_daily_results`) from a
knowledge-graph search API, plus a one-time backfill routine that copies one
day's result rows across a date range with a random ±5% score perturbation.

Modelling conventions:
* scores (Python floats) are modelled as exact rationals (`ℚ`);
* dates are modelled as day ordinals (`Nat`), relative to 2025-01-01;
* the random stream `random.uniform(-0.05, 0.05)` is modelled as an oracle
  `rand : Nat → ℚ` consumed draw by draw;
* the HTTP layer (`requests.get` + `raise_for_status` + `.json()`) is
  modelled as an oracle `transport : String → Except String Json`;
* JSON payloads are a small inductive `Json`; a Python dict is an
  association list with unique keys kept in insertion order.
-/

/-- JSON values, as produced by `response.json()` and stored in the
`raw_json` column. -/
inductive Json where
  | null : Json
  | bool (b : Bool) : Json
  | num (q : ℚ) : Json
  | str (s : String) : Json
  | arr (xs : List Json) : Json
  | obj (fields : List (String × Json)) : Json

/-- Lookup of a key in a JSON object's field list (Python `d.get(k)` /
`d[k]` read on a dict with unique keys). -/
def lookupField : List (String × Json) → String → Option Json
  | [], _ => none
  | (k', v) :: rest, k => if k' = k then some v else lookupField rest k

/-- Python `d.get(k)` on a JSON value: a field lookup on objects, `None`
otherwise. -/
def Json.getField : Json → String → Option Json
  | Json.obj fields, k => lookupField fields k
  | _, _ => none

/-- Python dict item assignment `d[k] = v`: replace the value of an existing
key in place, otherwise append the new key at the end. -/
def setPairs : List (String × Json) → String → Json → List (String × Json)
  | [], k, v => [(k, v)]
  | (k', v') :: rest, k, v =>
      if k' = k then (k, v) :: rest else (k', v') :: setPairs rest k v

/-- Item assignment `j[k] = v` on a JSON value (meaningful on objects). -/
def Json.setField : Json → String → Json → Json
  | Json.obj fields, k, v => Json.obj (setPairs fields k v)
  | j, _, _ => j

/-- Python truthiness of a JSON value (`if api_data`). -/
def jsonTruthy : Json → Bool
  | Json.null => false
  | Json.bool b => b
  | Json.num q => q != 0
  | Json.str s => s != ""
  | Json.arr xs => !xs.isEmpty
  | Json.obj fields => !fields.isEmpty

/-- Round half to even at integer precision, as Python `round` does on an
exactly represented value. -/
def roundHalfEven (x : ℚ) : ℤ :=
  if x - x.floor < 1 / 2 then x.floor
  else if x - x.floor = 1 / 2 then (if x.floor % 2 = 0 then x.floor else x.floor + 1)
  else x.floor + 1

/-- Python `round(x, 4)`: round half to even at 4 decimal places
(idealized over exact rationals). -/
def pyRound4 (x : ℚ) : ℚ :=
  (roundHalfEven (x * 10000) : ℚ) / 10000

/-- Row of the `entities` table: an integer primary key and a unique name. -/
structure EntityRow where
  id : Nat
  name : String
deriving DecidableEq

/-- Row of the `knowledge_graph_daily_results` table (the autoincrement id
and the server-assigned timestamps are omitted; no flow reads them). -/
structure ResultRow where
  entity_id : Nat
  result_score : Option ℚ
  name : Option String
  description : Option String
  article_body : Option String
  raw_json : Json
  date : Nat

/-- Database state shared by both flows. `tablesCreated` records whether
`Base.metadata.create_all` has run against this database. -/
structure DB where
  tablesCreated : Bool
  entities : List EntityRow
  results : List ResultRow

/-- Schema well-formedness guaranteed by the database constraints:
primary-key ids are unique and `name` carries a UNIQUE constraint. -/
def DB.wf (db : DB) : Prop :=
  (db.entities.map (fun e => e.id)).Nodup ∧ (db.entities.map (fun e => e.name)).Nodup

/-- The static list of tracked entity names (`ENTITIES`). -/
def ENTITIES : List String :=
  ["ClutchPoints", "Yahoo Sports", "The Sporting News", "Bleacher Report",
   "FanSided", "ESPN", "CBS Sports", "Sports Illustrated", "FOX Sports",
   "SB Nation", "The Athletic", "Essentially Sports"]

/-- The API client `fetch_entity_data`: with no `GOOGLE_API_KEY` it logs and
returns `None` without touching the network; otherwise it issues the request
(`transport` models `requests.get` + `raise_for_status` + `.json()`), and
converts any transport or non-success-status error into `None`. -/
def fetch_entity_data (api_key : Option String)
    (transport : String → Except String Json) (entity_name : String) : Option Json :=
  match api_key with
  | none => none
  | some _ =>
    match transport entity_name with
    | Except.ok j => some j
    | Except.error _ => none

/-- Extraction of an optional string column value from a JSON field. -/
def jsonOptStr : Option Json → Option String
  | some (Json.str s) => some s
  | _ => none

/-- Extraction of an optional float column value from a JSON field. -/
def jsonOptNum : Option Json → Option ℚ
  | some (Json.num q) => some q
  | _ => none

/-- Mapping of one item of `itemListElement` to a new result row, as in the
population loop body of `main`. -/
def resultRowOfItem (eid today : Nat) (item : Json) : ResultRow :=
  { entity_id := eid
  , result_score := jsonOptNum (item.getField "resultScore")
  , name := jsonOptStr (((item.getField "result").getD (Json.obj [])).getField "name")
  , description := jsonOptStr (((item.getField "result").getD (Json.obj [])).getField "description")
  , article_body := jsonOptStr ((((item.getField "result").getD (Json.obj [])).getField
      "detailedDescription").getD (Json.obj []) |>.getField "articleBody")
  , raw_json := item
  , date := today }

/-- Largest entity id present (0 when the table is empty). -/
def entityIdsMax (db : DB) : Nat :=
  (db.entities.map (fun e => e.id)).foldr max 0

/-- Fresh autoincrement id assigned to a newly inserted entity. -/
def freshEntityId (db : DB) : Nat :=
  entityIdsMax db + 1

/-- Insertion of the fetched items for one entity (`main`): when the response
is truthy and carries an `itemListElement` list, each item becomes a new
result row; otherwise nothing is written. -/
def insertRowsFor (db1 : DB) (eid today : Nat) (api_data : Option Json) : DB :=
  match api_data with
  | some j =>
    if jsonTruthy j then
      match j.getField "itemListElement" with
      | some (Json.arr items) =>
          { db1 with results := db1.results ++ items.map (resultRowOfItem eid today) }
      | _ => db1
    else db1
  | none => db1

/-- Outcome of the population flow: the database state plus the list of
entity names for which `fetch_entity_data` was invoked. -/
structure MainOutcome where
  db : DB
  fetched : List String

/-- Rest of the population loop body once the `Entity` row is at hand: skip
when a result row for (entity, today) already exists, otherwise call the API
client (recording the fetch) and insert the returned items. -/
def processEntityWith (today : Nat) (key : Option String)
    (transport : String → Except String Json) (fetched : List String)
    (db1 : DB) (entity : EntityRow) (entity_name : String) : MainOutcome :=
  if db1.results.any (fun r => r.entity_id == entity.id && r.date == today) then
    { db := db1, fetched := fetched }
  else
    { db := insertRowsFor db1 entity.id today (fetch_entity_data key transport entity_name)
    , fetched := fetched ++ [entity_name] }

/-- Body of the population loop of `main` for one entity name: get-or-create
the entity (committed immediately when created), then proceed with the
existence check and the fetch. -/
def processEntity (today : Nat) (key : Option String)
    (transport : String → Except String Json) (acc : MainOutcome)
    (entity_name : String) : MainOutcome :=
  match acc.db.entities.find? (fun x => x.name == entity_name) with
  | some e => processEntityWith today key transport acc.fetched acc.db e entity_name
  | none =>
    processEntityWith today key transport acc.fetched
      { acc.db with entities :=
          acc.db.entities ++ [{ id := freshEntityId acc.db, name := entity_name }] }
      { id := freshEntityId acc.db, name := entity_name } entity_name

/-- The daily population flow (the source's `main`; that name is reserved by Lean): abort early when `GOOGLE_API_KEY` or
`DATABASE_URL` is missing, otherwise create the tables if absent and process
every tracked entity in order. -/
def main_populate (key db_url : Option String) (transport : String → Except String Json)
    (db : DB) (today : Nat) : MainOutcome :=
  match key with
  | none => { db := db, fetched := [] }
  | some _ =>
    match db_url with
    | none => { db := db, fetched := [] }
    | some _ =>
      ENTITIES.foldl (processEntity today key transport)
        { db := { db with tablesCreated := true }, fetched := [] }

/-- New score computed by the backfill loop:
`round(original_score * (1 + u), 4) if original_score else None`.
A `None` or falsy (zero) original score yields `None`. -/
def newScore (orig : Option ℚ) (u : ℚ) : Option ℚ :=
  match orig with
  | some v => if v = 0 then none else some (pyRound4 (v * (1 + u)))
  | none => none

/-- New result row built by the backfill loop from one source row: the raw
payload is deep-copied and its `resultScore` field is patched only when the
new score is not `None`; entity, name, description and body are reused. -/
def newResultRow (src : ResultRow) (u : ℚ) (target : Nat) : ResultRow :=
  { entity_id := src.entity_id
  , result_score := newScore src.result_score u
  , name := src.name
  , description := src.description
  , article_body := src.article_body
  , raw_json :=
      match newScore src.result_score u with
      | some w => src.raw_json.setField "resultScore" (Json.num w)
      | none => src.raw_json
  , date := target }

/-- Inner loop of the backfill for one target date: one new row per source
row, consuming one random draw each; returns the rows and the next draw
index. -/
def backfillRows : List ResultRow → (Nat → ℚ) → Nat → Nat → List ResultRow × Nat
  | [], _, ctr, _ => ([], ctr)
  | s :: rest, rand, ctr, target =>
    ((newResultRow s (rand ctr) target) :: (backfillRows rest rand (ctr + 1) target).1,
     (backfillRows rest rand (ctr + 1) target).2)

/-- One iteration of the backfill's date loop: skip the date when any result
row already exists for it, otherwise stage one new row per source row. -/
def backfillStep (srcRes : List ResultRow) (rand : Nat → ℚ)
    (acc : DB × Nat) (d : Nat) : DB × Nat :=
  if acc.1.results.any (fun r => r.date == d) then acc
  else
    ({ acc.1 with results := acc.1.results ++ (backfillRows srcRes rand acc.2 d).1 },
     (backfillRows srcRes rand acc.2 d).2)

/-- Inclusive date range iterated by the backfill's `while` loop (empty when
the start date is after the end date). -/
def dateRange (start_date end_date : Nat) : List Nat :=
  (List.range (end_date + 1 - start_date)).map (fun i => start_date + i)

/-- The backfill flow `backfill_data`: load the source date's rows, abort
when there are none, then process each target date in order, committing all
staged rows at the end. -/
def backfill_data (db : DB) (rand : Nat → ℚ)
    (source_date start_date end_date : Nat) : DB :=
  if (db.results.filter (fun r => r.date == source_date)).isEmpty then db
  else
    ((dateRange start_date end_date).foldl
      (backfillStep (db.results.filter (fun r => r.date == source_date)) rand)
      (db, 0)).1

/-- Day ordinal of 2025-07-08, counted from 2025-01-01 as day 0. -/
def ord20250708 : Nat := 188

/-- Day ordinal of 2025-06-29, counted from 2025-01-01 as day 0. -/
def ord20250629 : Nat := 179

/-- Day ordinal of 2025-07-07, counted from 2025-01-01 as day 0. -/
def ord20250707 : Nat := 187

/-- The routine `run_backfill`: connect (aborting when `DATABASE_URL` is
missing) and run the backfill over the hardcoded dates. It performs no
table creation. -/
def run_backfill (database_url : Option String) (rand : Nat → ℚ) (db : DB) : DB :=
  match database_url with
  | none => db
  | some _ => backfill_data db rand ord20250708 ord20250629 ord20250707

/-- The process entry point: the call to `main` is commented out; only
`run_backfill` executes. -/
def script_entry (database_url : Option String) (rand : Nat → ℚ) (db : DB) : DB :=
  run_backfill database_url rand db

/-- Constant random oracle drawing 0 (the midpoint of the jitter range). -/
def rand0 : Nat → ℚ := fun _ => 0

/-- Constant random oracle drawing 1/22 ≈ 0.04545, strictly inside the
jitter range (-0.05, 0.05), hence a possible sequence of
`random.uniform(-0.05, 0.05)` draws. -/
def randIn : Nat → ℚ := fun _ => 1 / 22

/-- Concrete result row used by witnesses and counterexamples. -/
def mkRow (eid : Nat) (sc : Option ℚ) (j : Json) (d : Nat) : ResultRow :=
  { entity_id := eid, result_score := sc, name := none, description := none
  , article_body := none, raw_json := j, date := d }

/-- Concrete database with no result rows at all. -/
def dbEmptyW : DB := { tablesCreated := true, entities := [], results := [] }

/-- Concrete database whose single source row (date 2025-07-08) has the
falsy score 0 and a payload that carries an explicit `resultScore` field. -/
def dbZeroRaw : DB :=
  { tablesCreated := true, entities := [⟨1, "ClutchPoints"⟩]
  , results := [mkRow 1 (some 0) (Json.obj [("resultScore", Json.num 0)]) 188] }

/-- Concrete database whose single source row has the tiny score
106/105000 = 53/52500, chosen so that rounding the +5% perturbation to 4
decimal places (a draw of 1/22 gives 53/52500 * 23/22 * 10000 = 2438/231,
which rounds up to 11, i.e. a stored score of 0.0011 > 1.05 * 53/52500)
lands strictly outside the ±5% band. -/
def dbTiny : DB :=
  { tablesCreated := true, entities := [⟨1, "ClutchPoints"⟩]
  , results := [mkRow 1 (some (53 / 52500)) (Json.obj []) 188] }

/-- Concrete database matching the spec scenario: two source rows on
2025-07-08 with scores 10.0 and 20.0. -/
def dbTwo : DB :=
  { tablesCreated := true, entities := [⟨1, "ClutchPoints"⟩]
  , results := [mkRow 1 (some 10) (Json.obj []) 188, mkRow 1 (some 20) (Json.obj []) 188] }

/-- Concrete database with a source row on 2025-07-08 and a pre-existing
row on the target date 2025-06-29. -/
def dbTargetPop : DB :=
  { tablesCreated := true, entities := [⟨1, "ClutchPoints"⟩]
  , results := [mkRow 1 (some 10) (Json.obj []) 188, mkRow 1 (some 5) (Json.obj []) 179] }

/-- Concrete database in which entity "ESPN" already has a result row for
the current date (day 100). -/
def dbSkip : DB :=
  { tablesCreated := true, entities := [⟨1, "ESPN"⟩]
  , results := [mkRow 1 (some 10) Json.null 100] }

/-- Concrete database whose tables have not been created yet. -/
def dbFresh : DB := { tablesCreated := false, entities := [], results := [] }

theorem ratFloor_le (x : ℚ) : (x.floor : ℚ) ≤ x := Rat.le_floor.mp le_rfl

theorem ratFloor_lt_add_one (x : ℚ) : x < (x.floor : ℚ) + 1 := by
  by_contra h
  push_neg at h
  have h2 : x.floor + 1 ≤ x.floor := Rat.le_floor.mpr (by push_cast; linarith)
  omega

theorem ratFloor_eq (x : ℚ) (n : ℤ) (h1 : (n : ℚ) ≤ x) (h2 : x < n + 1) :
    x.floor = n := by
  have ha : n ≤ x.floor := Rat.le_floor.mpr h1
  have hb : ¬ (n + 1 ≤ x.floor) := fun h => by
    have := Rat.le_floor.mp h
    push_cast at this
    linarith
  omega

theorem roundHalfEven_eq_up (x : ℚ) (n : ℤ) (h1 : (n : ℚ) ≤ x) (h2 : x < n + 1)
    (hhalf : 1 / 2 < x - n) : roundHalfEven x = n + 1 := by
  have hf : x.floor = n := ratFloor_eq x n h1 h2
  unfold roundHalfEven
  rw [hf, if_neg (by linarith), if_neg (by linarith)]

theorem abs_roundHalfEven_sub_le (x : ℚ) : |(roundHalfEven x : ℚ) - x| ≤ 1 / 2 := by
  have h0 : ((x.floor : ℤ) : ℚ) ≤ x := ratFloor_le x
  have h1 : x < ((x.floor : ℤ) : ℚ) + 1 := ratFloor_lt_add_one x
  unfold roundHalfEven
  split_ifs with hlt heq hev
  · rw [abs_le]; exact ⟨by linarith, by linarith⟩
  · rw [abs_le]; exact ⟨by linarith, by linarith⟩
  · rw [abs_le]; constructor <;> push_cast <;> linarith
  · rw [not_lt] at hlt
    rw [abs_le]; constructor <;> push_cast <;> linarith

theorem abs_pyRound4_sub_le (x : ℚ) : |pyRound4 x - x| ≤ 1 / 20000 := by
  have h := abs_roundHalfEven_sub_le (x * 10000)
  have h2 : pyRound4 x - x = ((roundHalfEven (x * 10000) : ℚ) - x * 10000) / 10000 := by
    unfold pyRound4; ring
  rw [h2, abs_div]
  have h3 : |(10000 : ℚ)| = 10000 := by norm_num
  rw [h3]
  linarith

theorem abs_pyRound4_jitter (v u : ℚ) (h1 : -(1 / 20) ≤ u) (h2 : u ≤ 1 / 20) :
    |pyRound4 (v * (1 + u)) - v| ≤ |v| * (1 / 20) + 1 / 20000 := by
  have hr := abs_pyRound4_sub_le (v * (1 + u))
  have htri : |pyRound4 (v * (1 + u)) - v|
      ≤ |pyRound4 (v * (1 + u)) - v * (1 + u)| + |v * (1 + u) - v| :=
    abs_sub_le _ _ _
  have hvu : |v * (1 + u) - v| = |v| * |u| := by
    rw [show v * (1 + u) - v = v * u by ring, abs_mul]
  have hu : |u| ≤ 1 / 20 := abs_le.mpr ⟨by linarith, h2⟩
  have hm : |v| * |u| ≤ |v| * (1 / 20) :=
    mul_le_mul_of_nonneg_left hu (abs_nonneg v)
  linarith

theorem backfillRows_length (src : List ResultRow) (rand : Nat → ℚ) (ctr target : Nat) :
    (backfillRows src rand ctr target).1.length = src.length := by
  induction src generalizing ctr with
  | nil => rfl
  | cons s rest ih => simp [backfillRows, ih]

theorem backfillRows_mem (src : List ResultRow) (rand : Nat → ℚ) (ctr target : Nat)
    (r : ResultRow) (hr : r ∈ (backfillRows src rand ctr target).1) :
    ∃ s ∈ src, ∃ i, r = newResultRow s (rand i) target := by
  induction src generalizing ctr with
  | nil => simp [backfillRows] at hr
  | cons s rest ih =>
    simp only [backfillRows, List.mem_cons] at hr
    rcases hr with h | h
    · exact ⟨s, by simp, ctr, h⟩
    · obtain ⟨s', hs', i, hi⟩ := ih ctr.succ h
      exact ⟨s', by simp [hs'], i, hi⟩

theorem newResultRow_date (s : ResultRow) (u : ℚ) (target : Nat) :
    (newResultRow s u target).date = target := rfl

theorem backfillFold_structure (srcRes : List ResultRow) (rand : Nat → ℚ)
    (L : List Nat) :
    ∀ acc : DB × Nat,
      ∃ new, ((L.foldl (backfillStep srcRes rand) acc).1).results = acc.1.results ++ new
        ∧ (∀ r ∈ new, ∃ d ∈ L, ∃ s ∈ srcRes, ∃ i, r = newResultRow s (rand i) d)
        ∧ ((L.foldl (backfillStep srcRes rand) acc).1).entities = acc.1.entities
        ∧ ((L.foldl (backfillStep srcRes rand) acc).1).tablesCreated = acc.1.tablesCreated := by
  induction L with
  | nil => intro acc; exact ⟨[], by simp, by simp, rfl, rfl⟩
  | cons d L ih =>
    intro acc
    simp only [List.foldl_cons]
    by_cases hc : acc.1.results.any (fun r => r.date == d) = true
    · have hstep : backfillStep srcRes rand acc d = acc := by
        simp [backfillStep, hc]
      rw [hstep]
      obtain ⟨new, h1, h2, h3, h4⟩ := ih acc
      refine ⟨new, h1, ?_, h3, h4⟩
      intro r hr
      obtain ⟨d', hd', rest⟩ := h2 r hr
      exact ⟨d', by simp [hd'], rest⟩
    · have hstep : backfillStep srcRes rand acc d
          = ({ acc.1 with results := acc.1.results ++ (backfillRows srcRes rand acc.2 d).1 },
             (backfillRows srcRes rand acc.2 d).2) := by
        simp [backfillStep, hc]
      rw [hstep]
      obtain ⟨new, h1, h2, h3, h4⟩ :=
        ih ({ acc.1 with results := acc.1.results ++ (backfillRows srcRes rand acc.2 d).1 },
            (backfillRows srcRes rand acc.2 d).2)
      refine ⟨(backfillRows srcRes rand acc.2 d).1 ++ new, ?_, ?_, by simpa using h3,
        by simpa using h4⟩
      · rw [h1]; simp
      · intro r hr
        rcases List.mem_append.mp hr with h | h
        · obtain ⟨s, hs, i, hi⟩ := backfillRows_mem _ _ _ _ _ h
          exact ⟨d, by simp, s, hs, i, hi⟩
        · obtain ⟨d', hd', rest⟩ := h2 r h
          exact ⟨d', by simp [hd'], rest⟩

theorem backfillFold_length (srcRes : List ResultRow) (rand : Nat → ℚ)
    (L : List Nat) :
    ∀ acc : DB × Nat, L.Nodup →
      (∀ d ∈ L, acc.1.results.any (fun r => r.date == d) = false) →
      ((L.foldl (backfillStep srcRes rand) acc).1).results.length
        = acc.1.results.length + srcRes.length * L.length := by
  induction L with
  | nil => intro acc _ _; simp
  | cons d L ih =>
    intro acc hnd hempty
    simp only [List.foldl_cons]
    have hc : acc.1.results.any (fun r => r.date == d) = false := hempty d (by simp)
    have hstep : backfillStep srcRes rand acc d
        = ({ acc.1 with results := acc.1.results ++ (backfillRows srcRes rand acc.2 d).1 },
           (backfillRows srcRes rand acc.2 d).2) := by
      simp [backfillStep, hc]
    rw [hstep]
    have hempty' : ∀ d' ∈ L,
        (acc.1.results ++ (backfillRows srcRes rand acc.2 d).1).any
          (fun r => r.date == d') = false := by
      intro d' hd'
      rw [List.any_append]
      have h1 : acc.1.results.any (fun r => r.date == d') = false :=
        hempty d' (by simp [hd'])
      have h2 : ((backfillRows srcRes rand acc.2 d).1).any (fun r => r.date == d') = false := by
        rw [List.any_eq_false]
        intro r hrm
        obtain ⟨s, _, i, hi⟩ := backfillRows_mem _ _ _ _ _ hrm
        have hrd : r.date = d := by rw [hi]; rfl
        have hdd' : d ≠ d' := fun h => (List.nodup_cons.mp hnd).1 (h ▸ hd')
        simp [hrd, hdd']
      rw [h1, h2]
      rfl
    have hrec := ih ({ acc.1 with results := acc.1.results ++ (backfillRows srcRes rand acc.2 d).1 },
        (backfillRows srcRes rand acc.2 d).2) (List.nodup_cons.mp hnd).2 hempty'
    rw [hrec]
    simp only [List.length_append, backfillRows_length, List.length_cons]
    ring

theorem backfillFold_filter_preserved (srcRes : List ResultRow) (rand : Nat → ℚ)
    (d : Nat) (F : List ResultRow) (L : List Nat) :
    ∀ acc : DB × Nat,
      acc.1.results.filter (fun r => r.date == d) = F → F ≠ [] →
      ((L.foldl (backfillStep srcRes rand) acc).1).results.filter (fun r => r.date == d) = F := by
  induction L with
  | nil => intro acc h _; simpa using h
  | cons d' L ih =>
    intro acc hF hne
    simp only [List.foldl_cons]
    by_cases hc : acc.1.results.any (fun r => r.date == d') = true
    · have hstep : backfillStep srcRes rand acc d' = acc := by simp [backfillStep, hc]
      rw [hstep]; exact ih acc hF hne
    · have hd : d' ≠ d := by
        intro h
        subst h
        obtain ⟨r, hr⟩ := List.exists_mem_of_ne_nil F hne
        rw [← hF] at hr
        obtain ⟨hmem, hdate⟩ := List.mem_filter.mp hr
        exact hc (List.any_eq_true.mpr ⟨r, hmem, hdate⟩)
      have hstep : backfillStep srcRes rand acc d'
          = ({ acc.1 with results := acc.1.results ++ (backfillRows srcRes rand acc.2 d').1 },
             (backfillRows srcRes rand acc.2 d').2) := by
        simp [backfillStep, hc]
      rw [hstep]
      apply ih
      · simp only [List.filter_append, hF]
        have hnil : ((backfillRows srcRes rand acc.2 d').1).filter (fun r => r.date == d) = [] := by
          rw [List.filter_eq_nil_iff]
          intro r hrm
          obtain ⟨s, _, i, hi⟩ := backfillRows_mem _ _ _ _ _ hrm
          have hrd : r.date = d' := by rw [hi]; rfl
          simp [hrd, hd]
        rw [hnil, List.append_nil]
      · exact hne

theorem dateRange_length (s e : Nat) : (dateRange s e).length = e + 1 - s := by
  simp [dateRange]

theorem dateRange_nodup (s e : Nat) : (dateRange s e).Nodup := by
  apply List.Nodup.map
  · intro a b h
    exact Nat.add_left_cancel h
  · exact List.nodup_range _

theorem newResultRow_score_falsy (s : ResultRow) (u : ℚ) (target : Nat)
    (h : s.result_score = none ∨ s.result_score = some 0) :
    (newResultRow s u target).result_score = none
    ∧ (newResultRow s u target).raw_json = s.raw_json := by
  rcases h with h | h <;> simp [newResultRow, newScore, h]

theorem newResultRow_score_truthy (s : ResultRow) (u : ℚ) (target : Nat)
    (v : ℚ) (hv : s.result_score = some v) (hv0 : v ≠ 0) :
    (newResultRow s u target).result_score = some (pyRound4 (v * (1 + u)))
    ∧ (newResultRow s u target).raw_json
        = s.raw_json.setField "resultScore" (Json.num (pyRound4 (v * (1 + u)))) := by
  simp [newResultRow, newScore, hv, hv0]

theorem newResultRow_raw_json_cases (s : ResultRow) (u : ℚ) (target : Nat) :
    (∀ w, (newResultRow s u target).result_score = some w →
        (newResultRow s u target).raw_json = s.raw_json.setField "resultScore" (Json.num w))
    ∧ ((newResultRow s u target).result_score = none →
        (newResultRow s u target).raw_json = s.raw_json) := by
  rcases hsro : s.result_score with _ | v
  · refine ⟨?_, ?_⟩
    · intro w hw
      simp [newResultRow, newScore, hsro] at hw
    · intro _
      exact (newResultRow_score_falsy s u target (Or.inl hsro)).2
  · by_cases hv0 : v = 0
    · refine ⟨?_, ?_⟩
      · intro w hw
        simp [newResultRow, newScore, hsro, hv0] at hw
      · intro _
        exact (newResultRow_score_falsy s u target (Or.inr (hv0 ▸ hsro))).2
    · refine ⟨?_, ?_⟩
      · intro w hw
        obtain ⟨h1, h2⟩ := newResultRow_score_truthy s u target v hsro hv0
        rw [h1] at hw
        rw [h2, Option.some.inj hw]
      · intro hnone
        obtain ⟨h1, _⟩ := newResultRow_score_truthy s u target v hsro hv0
        rw [h1] at hnone
        exact absurd hnone (by simp)

/-- C7: when no result row exists for the source date, the backfill aborts
before performing any write and the database state is unchanged. -/
theorem backfill_aborts_without_source (db : DB) (rand : Nat → ℚ)
    (source_date start_date end_date : Nat)
    (h : db.results.filter (fun r => r.date == source_date) = []) :
    backfill_data db rand source_date start_date end_date = db := by
  unfold backfill_data
  rw [h]
  rfl

/-- Witness for C7 at a concrete empty database. -/
theorem backfill_aborts_without_source_witness :
    dbEmptyW.results.filter (fun r => r.date == 188) = []
    ∧ backfill_data dbEmptyW rand0 188 179 187 = dbEmptyW :=
  ⟨rfl, backfill_aborts_without_source dbEmptyW rand0 188 179 187 rfl⟩

/-- C8: the backfill flow never modifies existing rows: entities are left
untouched and the result table only grows by appended new rows; every
pre-existing row (source rows and their payloads included) is unchanged. -/
theorem backfill_frame_only_appends (db : DB) (rand : Nat → ℚ)
    (source_date start_date end_date : Nat) :
    (backfill_data db rand source_date start_date end_date).entities = db.entities
    ∧ (backfill_data db rand source_date start_date end_date).tablesCreated = db.tablesCreated
    ∧ ∃ new, (backfill_data db rand source_date start_date end_date).results
        = db.results ++ new := by
  unfold backfill_data
  by_cases h : (db.results.filter (fun r => r.date == source_date)).isEmpty = true
  · rw [if_pos h]
    exact ⟨rfl, rfl, [], by simp⟩
  · rw [if_neg h]
    obtain ⟨new, h1, _, h3, h4⟩ :=
      backfillFold_structure _ rand (dateRange start_date end_date) (db, 0)
    exact ⟨h3, h4, new, h1⟩

/-- C3: a target date in the backfill range that already has a result row is
skipped: its rows are left unchanged and no new row is inserted for it. -/
theorem backfill_skips_populated_dates (db : DB) (rand : Nat → ℚ)
    (source_date start_date end_date d : Nat)
    (_hd : d ∈ dateRange start_date end_date)
    (hexist : db.results.any (fun r => r.date == d) = true) :
    (backfill_data db rand source_date start_date end_date).results.filter
        (fun r => r.date == d)
      = db.results.filter (fun r => r.date == d) := by
  unfold backfill_data
  by_cases h : (db.results.filter (fun r => r.date == source_date)).isEmpty = true
  · rw [if_pos h]
  · rw [if_neg h]
    have hF : db.results.filter (fun r => r.date == d) ≠ [] := by
      obtain ⟨r, hrm, hrd⟩ := List.any_eq_true.mp hexist
      exact List.ne_nil_of_mem (List.mem_filter.mpr ⟨hrm, hrd⟩)
    exact backfillFold_filter_preserved _ rand d _ (dateRange start_date end_date) (db, 0) rfl hF

/-- Witness for C3: the pre-populated target date 2025-06-29 keeps exactly
its one pre-existing row after a backfill from 2025-07-08. -/
theorem backfill_skips_populated_dates_witness :
    179 ∈ dateRange 179 187
    ∧ dbTargetPop.results.any (fun r => r.date == 179) = true
    ∧ (backfill_data dbTargetPop rand0 188 179 187).results.filter (fun r => r.date == 179)
        = dbTargetPop.results.filter (fun r => r.date == 179) :=
  ⟨by decide, rfl,
   backfill_skips_populated_dates dbTargetPop rand0 188 179 187 179 (by decide) rfl⟩

/-- C1 (amended): for a source date with N rows and a target range of D days
none of which is pre-populated, the backfill inserts exactly N * D new rows;
each inserted row's score is `None` when its source row's score is `None`
or 0 (Python falsiness), and otherwise lies within ±5% of the source score
up to the 4-decimal rounding step (absolute tolerance 1/20000). -/
theorem backfill_insert_count_and_score_band (db : DB) (rand : Nat → ℚ)
    (source_date start_date end_date : Nat)
    (hrand : ∀ i, -(1 / 20 : ℚ) ≤ rand i ∧ rand i ≤ 1 / 20)
    (hempty : ∀ d ∈ dateRange start_date end_date,
        db.results.any (fun r => r.date == d) = false) :
    ∃ new, (backfill_data db rand source_date start_date end_date).results
        = db.results ++ new
      ∧ new.length = (db.results.filter (fun x => x.date == source_date)).length
          * (end_date + 1 - start_date)
      ∧ ∀ r ∈ new, ∃ s ∈ db.results.filter (fun x => x.date == source_date),
          (s.result_score = none → r.result_score = none)
          ∧ (s.result_score = some 0 → r.result_score = none)
          ∧ (∀ v, s.result_score = some v → v ≠ 0 →
              ∃ w, r.result_score = some w ∧ |w - v| ≤ |v| * (1 / 20) + 1 / 20000) := by
  unfold backfill_data
  by_cases h : (db.results.filter (fun r => r.date == source_date)).isEmpty = true
  · rw [if_pos h]
    rw [List.isEmpty_iff] at h
    exact ⟨[], by simp, by simp [h], by simp⟩
  · rw [if_neg h]
    obtain ⟨new, h1, h2, _, _⟩ :=
      backfillFold_structure _ rand (dateRange start_date end_date) (db, 0)
    have hlen := backfillFold_length
      (db.results.filter (fun r => r.date == source_date)) rand
      (dateRange start_date end_date) (db, 0) (dateRange_nodup _ _) hempty
    refine ⟨new, h1, ?_, ?_⟩
    · have hc := congrArg List.length h1
      rw [hlen, List.length_append] at hc
      have := Nat.add_left_cancel hc
      rw [← this, dateRange_length]
    · intro r hr
      obtain ⟨d, _, s, hs, i, hi⟩ := h2 r hr
      refine ⟨s, hs, ?_, ?_, ?_⟩
      · intro hnone
        rw [hi]
        exact (newResultRow_score_falsy s (rand i) d (Or.inl hnone)).1
      · intro h0
        rw [hi]
        exact (newResultRow_score_falsy s (rand i) d (Or.inr h0)).1
      · intro v hv hv0
        rw [hi]
        refine ⟨pyRound4 (v * (1 + rand i)), (newResultRow_score_truthy s (rand i) d v hv hv0).1, ?_⟩
        exact abs_pyRound4_jitter v (rand i) (hrand i).1 (hrand i).2

/-- Counterexample to C1 as stated. First, a source row with the falsy score
0.0 is backfilled with score `None`, while a score within ±5% of 0 would
have to be 0 itself, not `None`. Second, the 4-decimal rounding can push a
stored score strictly outside the ±5% band: with source score 53/52500 and
an in-range draw of 1/22, the stored score is 11/10000, which differs from
the source by more than 5% of it. -/
theorem backfill_score_band_counterexample :
    ((backfill_data dbZeroRaw rand0 188 179 179).results.map
        (fun r => (r.date, r.result_score)))
      = [(188, some 0), (179, none)]
    ∧ (∀ w : ℚ, |w - 0| ≤ |(0 : ℚ)| * (1 / 20) → w = 0)
    ∧ (backfill_data dbTiny randIn 188 179 179).results
        = dbTiny.results
          ++ [newResultRow (mkRow 1 (some (53 / 52500)) (Json.obj []) 188) (1 / 22) 179]
    ∧ (newResultRow (mkRow 1 (some (53 / 52500)) (Json.obj []) 188) (1 / 22) 179).result_score
        = some (11 / 10000)
    ∧ ¬ |(11 / 10000 : ℚ) - 53 / 52500| ≤ |(53 / 52500 : ℚ)| * (1 / 20) := by
  refine ⟨rfl, ?_, rfl, ?_, ?_⟩
  · intro w hw
    simpa using hw
  · have hx : (53 / 52500 : ℚ) * (1 + 1 / 22) * 10000 = 2438 / 231 := by norm_num
    have hr : roundHalfEven ((53 / 52500 : ℚ) * (1 + 1 / 22) * 10000) = 11 := by
      rw [hx]
      have h11 := roundHalfEven_eq_up (2438 / 231 : ℚ) 10 (by norm_num) (by norm_num) (by norm_num)
      rw [h11]
      norm_num
    have hpr : pyRound4 ((53 / 52500 : ℚ) * (1 + 1 / 22)) = 11 / 10000 := by
      unfold pyRound4
      rw [hr]
      norm_num
    have hs := (newResultRow_score_truthy (mkRow 1 (some (53 / 52500)) (Json.obj []) 188)
      (1 / 22) 179 (53 / 52500) rfl (by norm_num)).1
    rw [hs, hpr]
  · rw [not_le]
    rw [show |(11 / 10000 : ℚ) - 53 / 52500| = 19 / 210000 by rw [abs_of_pos] <;> norm_num]
    rw [show |(53 / 52500 : ℚ)| = 53 / 52500 by rw [abs_of_pos]; norm_num]
    norm_num

/-- Witness for C1 (amended) at the spec's own scenario: two source rows on
2025-07-08, nine empty target days 2025-06-29 .. 2025-07-07. -/
theorem backfill_insert_count_and_score_band_witness :
    (∀ i : Nat, -(1 / 20 : ℚ) ≤ rand0 i ∧ rand0 i ≤ 1 / 20)
    ∧ (∀ d ∈ dateRange 179 187, dbTwo.results.any (fun r => r.date == d) = false)
    ∧ ∃ new, (backfill_data dbTwo rand0 188 179 187).results = dbTwo.results ++ new
        ∧ new.length = (dbTwo.results.filter (fun x => x.date == 188)).length * (187 + 1 - 179)
        ∧ ∀ r ∈ new, ∃ s ∈ dbTwo.results.filter (fun x => x.date == 188),
            (s.result_score = none → r.result_score = none)
            ∧ (s.result_score = some 0 → r.result_score = none)
            ∧ (∀ v, s.result_score = some v → v ≠ 0 →
                ∃ w, r.result_score = some w ∧ |w - v| ≤ |v| * (1 / 20) + 1 / 20000) :=
  ⟨fun _ => ⟨by norm_num [rand0], by norm_num [rand0]⟩, by decide,
   backfill_insert_count_and_score_band dbTwo rand0 188 179 187
     (fun _ => ⟨by norm_num [rand0], by norm_num [rand0]⟩) (by decide)⟩

/-- C6: each backfilled row's stored score is round(original * (1 + u), 4)
for some u in [-0.05, 0.05] when the source score is present and truthy,
and `None` when the source score is absent or falsy. -/
theorem backfill_score_formula (db : DB) (rand : Nat → ℚ)
    (source_date start_date end_date : Nat)
    (hrand : ∀ i, -(1 / 20 : ℚ) ≤ rand i ∧ rand i ≤ 1 / 20) :
    ∃ new, (backfill_data db rand source_date start_date end_date).results
        = db.results ++ new
      ∧ ∀ r ∈ new, ∃ s ∈ db.results.filter (fun x => x.date == source_date),
          (s.result_score = none ∨ s.result_score = some 0 → r.result_score = none)
          ∧ (∀ v, s.result_score = some v → v ≠ 0 →
              ∃ u, -(1 / 20 : ℚ) ≤ u ∧ u ≤ 1 / 20
                ∧ r.result_score = some (pyRound4 (v * (1 + u)))) := by
  unfold backfill_data
  by_cases h : (db.results.filter (fun r => r.date == source_date)).isEmpty = true
  · rw [if_pos h]
    exact ⟨[], by simp, by simp⟩
  · rw [if_neg h]
    obtain ⟨new, h1, h2, _, _⟩ :=
      backfillFold_structure _ rand (dateRange start_date end_date) (db, 0)
    refine ⟨new, h1, ?_⟩
    intro r hr
    obtain ⟨d, _, s, hs, i, hi⟩ := h2 r hr
    refine ⟨s, hs, ?_, ?_⟩
    · intro hfalsy
      rw [hi]
      exact (newResultRow_score_falsy s (rand i) d hfalsy).1
    · intro v hv hv0
      rw [hi]
      exact ⟨rand i, (hrand i).1, (hrand i).2,
        (newResultRow_score_truthy s (rand i) d v hv hv0).1⟩

/-- Witness for C6 at the spec scenario database. -/
theorem backfill_score_formula_witness :
    (∀ i : Nat, -(1 / 20 : ℚ) ≤ rand0 i ∧ rand0 i ≤ 1 / 20)
    ∧ ∃ new, (backfill_data dbTwo rand0 188 179 187).results = dbTwo.results ++ new
        ∧ ∀ r ∈ new, ∃ s ∈ dbTwo.results.filter (fun x => x.date == 188),
            (s.result_score = none ∨ s.result_score = some 0 → r.result_score = none)
            ∧ (∀ v, s.result_score = some v → v ≠ 0 →
                ∃ u, -(1 / 20 : ℚ) ≤ u ∧ u ≤ 1 / 20
                  ∧ r.result_score = some (pyRound4 (v * (1 + u)))) :=
  ⟨fun _ => ⟨by norm_num [rand0], by norm_num [rand0]⟩,
   backfill_score_formula dbTwo rand0 188 179 187
     (fun _ => ⟨by norm_num [rand0], by norm_num [rand0]⟩)⟩

/-- C4 (amended): a backfilled row's stored payload equals its source row's
payload with the `resultScore` field set to the newly computed score when
that score is not `None`; when the new score is `None` the payload is stored
completely unchanged (no patch is applied). -/
theorem backfill_payload_patch (db : DB) (rand : Nat → ℚ)
    (source_date start_date end_date : Nat) :
    ∃ new, (backfill_data db rand source_date start_date end_date).results
        = db.results ++ new
      ∧ ∀ r ∈ new, ∃ s ∈ db.results.filter (fun x => x.date == source_date),
          (∀ w, r.result_score = some w →
              r.raw_json = s.raw_json.setField "resultScore" (Json.num w))
          ∧ (r.result_score = none → r.raw_json = s.raw_json) := by
  unfold backfill_data
  by_cases h : (db.results.filter (fun r => r.date == source_date)).isEmpty = true
  · rw [if_pos h]
    exact ⟨[], by simp, by simp⟩
  · rw [if_neg h]
    obtain ⟨new, h1, h2, _, _⟩ :=
      backfillFold_structure _ rand (dateRange start_date end_date) (db, 0)
    refine ⟨new, h1, ?_⟩
    intro r hr
    obtain ⟨d, _, s, hs, i, hi⟩ := h2 r hr
    refine ⟨s, hs, ?_, ?_⟩
    · intro w hw
      rw [hi] at hw ⊢
      exact (newResultRow_raw_json_cases s (rand i) d).1 w hw
    · intro hnone
      rw [hi] at hnone ⊢
      exact (newResultRow_raw_json_cases s (rand i) d).2 hnone

/-- Counterexample to C4 as stated: a source row with the falsy score 0.0
and a payload carrying `resultScore = 0` is backfilled with a `None` stored
score, yet its stored payload still carries the original field value
`Json.num 0` — the field is neither patched to the newly computed score
(`None`) nor to `null`; it is left untouched. -/
theorem backfill_payload_patch_counterexample :
    (backfill_data dbZeroRaw rand0 188 179 179).results
      = dbZeroRaw.results ++ [mkRow 1 none (Json.obj [("resultScore", Json.num 0)]) 179]
    ∧ (mkRow 1 none (Json.obj [("resultScore", Json.num 0)]) 179).result_score = none
    ∧ (mkRow 1 none (Json.obj [("resultScore", Json.num 0)]) 179).raw_json.getField
        "resultScore" = some (Json.num 0)
    ∧ some (Json.num 0) ≠ some Json.null
    ∧ (some (Json.num 0) : Option Json) ≠ none := by
  refine ⟨rfl, rfl, rfl, by simp, by simp⟩

/-- C10: a source row whose score is absent or falsy (including 0.0) is
backfilled with a `None` stored score and a payload equal to the source
payload exactly, retaining any original `resultScore` field value. -/
theorem backfill_falsy_scores_unpatched (db : DB) (rand : Nat → ℚ)
    (source_date start_date end_date : Nat) :
    ∃ new, (backfill_data db rand source_date start_date end_date).results
        = db.results ++ new
      ∧ ∀ r ∈ new, ∃ s ∈ db.results.filter (fun x => x.date == source_date),
          ((s.result_score = none ∨ s.result_score = some 0) →
            r.result_score = none ∧ r.raw_json = s.raw_json) := by
  unfold backfill_data
  by_cases h : (db.results.filter (fun r => r.date == source_date)).isEmpty = true
  · rw [if_pos h]
    exact ⟨[], by simp, by simp⟩
  · rw [if_neg h]
    obtain ⟨new, h1, h2, _, _⟩ :=
      backfillFold_structure _ rand (dateRange start_date end_date) (db, 0)
    refine ⟨new, h1, ?_⟩
    intro r hr
    obtain ⟨d, _, s, hs, i, hi⟩ := h2 r hr
    refine ⟨s, hs, ?_⟩
    intro hfalsy
    rw [hi]
    exact newResultRow_score_falsy s (rand i) d hfalsy

/-- C5: the API client never propagates a transport or non-success-status
error (any such error becomes a `None` result), and a missing API key yields
`None` regardless of the transport, i.e. without attempting the request. -/
theorem fetch_entity_data_error_handling (api_key : Option String)
    (transport : String → Except String Json) (entity_name : String) :
    (api_key = none → ∀ transport2 : String → Except String Json,
        fetch_entity_data none transport2 entity_name = none)
    ∧ (∀ msg, transport entity_name = Except.error msg →
        fetch_entity_data api_key transport entity_name = none) := by
  constructor
  · intro _ transport2
    rfl
  · intro msg hmsg
    rcases api_key with _ | k
    · rfl
    · unfold fetch_entity_data
      rw [hmsg]

/-- Witness for C5: a transport failure and a missing key both yield None. -/
theorem fetch_entity_data_error_handling_witness :
    fetch_entity_data none (fun _ => Except.ok Json.null) "ESPN" = none
    ∧ fetch_entity_data (some "k") (fun _ => Except.error "boom") "ESPN" = none :=
  ⟨(fetch_entity_data_error_handling none (fun _ => Except.ok Json.null) "ESPN").1 rfl
      (fun _ => Except.ok Json.null),
   (fetch_entity_data_error_handling (some "k") (fun _ => Except.error "boom") "ESPN").2
      "boom" rfl⟩

theorem insertRowsFor_shape (db1 : DB) (eid today : Nat) (ad : Option Json) :
    (insertRowsFor db1 eid today ad).tablesCreated = db1.tablesCreated
    ∧ (insertRowsFor db1 eid today ad).entities = db1.entities
    ∧ ∃ extra, (insertRowsFor db1 eid today ad).results = db1.results ++ extra
        ∧ ∀ r ∈ extra, r.entity_id = eid := by
  unfold insertRowsFor
  split
  · split
    · split
      · rename_i items heq
        refine ⟨rfl, rfl, items.map (resultRowOfItem eid today), rfl, ?_⟩
        intro r hr
        obtain ⟨it, _, hrit⟩ := List.mem_map.mp hr
        rw [← hrit]
        rfl
      · exact ⟨rfl, rfl, [], by simp, by simp⟩
    · exact ⟨rfl, rfl, [], by simp, by simp⟩
  · exact ⟨rfl, rfl, [], by simp, by simp⟩

theorem processEntityWith_tablesCreated (today : Nat) (key : Option String)
    (transport : String → Except String Json) (fetched : List String)
    (db1 : DB) (ent : EntityRow) (nm : String) :
    (processEntityWith today key transport fetched db1 ent nm).db.tablesCreated
      = db1.tablesCreated := by
  unfold processEntityWith
  split
  · rfl
  · exact (insertRowsFor_shape db1 ent.id today (fetch_entity_data key transport nm)).1

theorem processEntity_tablesCreated (today : Nat) (key : Option String)
    (transport : String → Except String Json) (acc : MainOutcome) (nm : String) :
    (processEntity today key transport acc nm).db.tablesCreated = acc.db.tablesCreated := by
  unfold processEntity
  rcases hfind : acc.db.entities.find? (fun x => x.name == nm) with _ | e2
  · rw [hfind]
    exact processEntityWith_tablesCreated today key transport acc.fetched _ _ nm
  · rw [hfind]
    exact processEntityWith_tablesCreated today key transport acc.fetched acc.db e2 nm

theorem foldl_processEntity_tablesCreated (today : Nat) (key : Option String)
    (transport : String → Except String Json) (L : List String) :
    ∀ acc : MainOutcome,
      (L.foldl (processEntity today key transport) acc).db.tablesCreated
        = acc.db.tablesCreated := by
  induction L with
  | nil => intro acc; rfl
  | cons nm rest ih =>
    intro acc
    simp only [List.foldl_cons]
    rw [ih, processEntity_tablesCreated]

theorem backfill_data_tablesCreated (db : DB) (rand : Nat → ℚ)
    (source_date start_date end_date : Nat) :
    (backfill_data db rand source_date start_date end_date).tablesCreated
      = db.tablesCreated := by
  unfold backfill_data
  by_cases h : (db.results.filter (fun r => r.date == source_date)).isEmpty = true
  · rw [if_pos h]
  · rw [if_neg h]
    exact (backfillFold_structure _ rand (dateRange start_date end_date) (db, 0)).choose_spec.2.2.2

/-- C9 (amended): running the script entry point executes only the backfill
routine against the hardcoded dates and performs no table creation at all
(the created-tables state is left as found); table auto-creation happens
only inside the daily-population flow, which the entry point does not call. -/
theorem script_entry_executes_backfill_only (url : Option String) (rand : Nat → ℚ)
    (db : DB) :
    script_entry url rand db = run_backfill url rand db
    ∧ (script_entry url rand db).tablesCreated = db.tablesCreated
    ∧ (∀ u, url = some u →
        script_entry url rand db = backfill_data db rand ord20250708 ord20250629 ord20250707)
    ∧ (∀ (k u : String) (transport : String → Except String Json) (today : Nat),
        (main_populate (some k) (some u) transport db today).db.tablesCreated = true) := by
  refine ⟨rfl, ?_, ?_, ?_⟩
  · rcases url with _ | u
    · rfl
    · exact backfill_data_tablesCreated db rand ord20250708 ord20250629 ord20250707
  · intro u hu
    rw [hu]
    rfl
  · intro k u transport today
    unfold main_populate
    rw [foldl_processEntity_tablesCreated]

/-- Counterexample to C9 as stated: running the script entry point against a
fresh database (tables not created) leaves the tables uncreated — the entry
point performs its queries without any auto-creation step. -/
theorem script_entry_no_table_creation_counterexample :
    dbFresh.tablesCreated = false
    ∧ ¬ ((script_entry (some "postgresql-url") rand0 dbFresh).tablesCreated = true) := by
  exact ⟨rfl, by decide⟩

/-- Witness for C9 (amended): at a concrete URL the entry point's effect is
exactly the hardcoded backfill call. -/
theorem script_entry_executes_backfill_only_witness :
    script_entry (some "postgresql-url") rand0 dbTwo
      = backfill_data dbTwo rand0 ord20250708 ord20250629 ord20250707 :=
  (script_entry_executes_backfill_only (some "postgresql-url") rand0 dbTwo).2.2.1
    "postgresql-url" rfl

theorem DB.wf_of_entities_eq {a b : DB} (h : a.entities = b.entities) (hb : b.wf) : a.wf := by
  unfold DB.wf at hb ⊢
  rw [h]
  exact hb

theorem mem_le_foldr_max (l : List Nat) (a : Nat) (ha : a ∈ l) : a ≤ l.foldr max 0 := by
  induction l with
  | nil => cases ha
  | cons h t ih =>
    rcases List.mem_cons.mp ha with rfl | ha'
    · exact le_max_left _ _
    · exact le_trans (ih ha') (le_max_right _ _)

theorem wf_append_fresh (db : DB) (nm : String) (hwf : db.wf)
    (hnm_new : ∀ x ∈ db.entities, x.name ≠ nm) :
    ({ db with entities :=
        db.entities ++ [{ id := freshEntityId db, name := nm }] } : DB).wf := by
  obtain ⟨hids, hnames⟩ := hwf
  have hltfresh : ∀ x ∈ db.entities, x.id < freshEntityId db := by
    intro x hx
    have hle : x.id ≤ entityIdsMax db := mem_le_foldr_max _ _ (List.mem_map_of_mem _ hx)
    unfold freshEntityId
    omega
  refine ⟨?_, ?_⟩
  · show ((db.entities ++ [({ id := freshEntityId db, name := nm } : EntityRow)]).map
      (fun x => x.id)).Nodup
    rw [List.map_append, List.nodup_append]
    refine ⟨hids, by simp, ?_⟩
    intro b hb hbmem
    simp only [List.map_cons, List.map_nil, List.mem_singleton] at hbmem
    subst hbmem
    obtain ⟨x, hx, hxid⟩ := List.mem_map.mp hb
    have hlt := hltfresh x hx
    omega
  · show ((db.entities ++ [({ id := freshEntityId db, name := nm } : EntityRow)]).map
      (fun x => x.name)).Nodup
    rw [List.map_append, List.nodup_append]
    refine ⟨hnames, by simp, ?_⟩
    intro b hb hbmem
    simp only [List.map_cons, List.map_nil, List.mem_singleton] at hbmem
    subst hbmem
    obtain ⟨x, hx, hxnm⟩ := List.mem_map.mp hb
    exact hnm_new x hx hxnm

theorem processEntityWith_other (today : Nat) (key : Option String)
    (transport : String → Except String Json) (fetched : List String)
    (db1 : DB) (ent : EntityRow) (nm : String) (e : EntityRow) (R : List ResultRow)
    (hwf1 : db1.wf) (he1 : e ∈ db1.entities)
    (hR1 : db1.results.filter (fun r => r.entity_id == e.id) = R)
    (hf1 : e.name ∉ fetched)
    (hid : ent.id ≠ e.id) (hnm : nm ≠ e.name) :
    (processEntityWith today key transport fetched db1 ent nm).db.wf
    ∧ e ∈ (processEntityWith today key transport fetched db1 ent nm).db.entities
    ∧ (processEntityWith today key transport fetched db1 ent nm).db.results.filter
        (fun r => r.entity_id == e.id) = R
    ∧ e.name ∉ (processEntityWith today key transport fetched db1 ent nm).fetched := by
  unfold processEntityWith
  split
  · exact ⟨hwf1, he1, hR1, hf1⟩
  · obtain ⟨_, hent, extra, hres, hextra⟩ :=
      insertRowsFor_shape db1 ent.id today (fetch_entity_data key transport nm)
    refine ⟨DB.wf_of_entities_eq hent hwf1, ?_, ?_, ?_⟩
    · show e ∈ (insertRowsFor db1 ent.id today (fetch_entity_data key transport nm)).entities
      rw [hent]
      exact he1
    · show (insertRowsFor db1 ent.id today
          (fetch_entity_data key transport nm)).results.filter
        (fun r => r.entity_id == e.id) = R
      rw [hres, List.filter_append]
      have hnil : extra.filter (fun r => r.entity_id == e.id) = [] := by
        rw [List.filter_eq_nil_iff]
        intro r hrm
        have h1 := hextra r hrm
        simp [h1, hid]
      rw [hnil, List.append_nil]
      exact hR1
    · show e.name ∉ fetched ++ [nm]
      intro hmem
      rcases List.mem_append.mp hmem with h | h
      · exact hf1 h
      · rw [List.mem_singleton] at h
        exact hnm h.symm

theorem processEntityWith_self (today : Nat) (key : Option String)
    (transport : String → Except String Json) (fetched : List String)
    (db1 : DB) (e : EntityRow) (nm : String) (R : List ResultRow)
    (hwf1 : db1.wf) (he1 : e ∈ db1.entities)
    (hR1 : db1.results.filter (fun r => r.entity_id == e.id) = R)
    (hf1 : e.name ∉ fetched)
    (hRrow : ∃ r ∈ R, r.entity_id = e.id ∧ r.date = today) :
    (processEntityWith today key transport fetched db1 e nm).db.wf
    ∧ e ∈ (processEntityWith today key transport fetched db1 e nm).db.entities
    ∧ (processEntityWith today key transport fetched db1 e nm).db.results.filter
        (fun r => r.entity_id == e.id) = R
    ∧ e.name ∉ (processEntityWith today key transport fetched db1 e nm).fetched := by
  have hcond : db1.results.any (fun r => r.entity_id == e.id && r.date == today) = true := by
    obtain ⟨r, hrR, hre, hrd⟩ := hRrow
    have hrmem : r ∈ db1.results := by
      rw [← hR1] at hrR
      exact (List.mem_filter.mp hrR).1
    exact List.any_eq_true.mpr ⟨r, hrmem, by simp [hre, hrd]⟩
  unfold processEntityWith
  rw [if_pos hcond]
  exact ⟨hwf1, he1, hR1, hf1⟩

theorem processEntity_skip_invariant (today : Nat) (key : Option String)
    (transport : String → Except String Json) (e : EntityRow) (R : List ResultRow)
    (nm : String) (acc : MainOutcome)
    (hRrow : ∃ r ∈ R, r.entity_id = e.id ∧ r.date = today)
    (hwf : acc.db.wf) (he : e ∈ acc.db.entities)
    (hR : acc.db.results.filter (fun r => r.entity_id == e.id) = R)
    (hf : e.name ∉ acc.fetched) :
    (processEntity today key transport acc nm).db.wf
    ∧ e ∈ (processEntity today key transport acc nm).db.entities
    ∧ (processEntity today key transport acc nm).db.results.filter
        (fun r => r.entity_id == e.id) = R
    ∧ e.name ∉ (processEntity today key transport acc nm).fetched := by
  unfold processEntity
  rcases hfind : acc.db.entities.find? (fun x => x.name == nm) with _ | e2
  · rw [hfind]
    have hnm_new : ∀ x ∈ acc.db.entities, x.name ≠ nm := by
      intro x hx hxeq
      have h := List.find?_eq_none.mp hfind x hx
      simp [hxeq] at h
    have hne : nm ≠ e.name := fun h => hnm_new e he h.symm
    have hltfresh : e.id < freshEntityId acc.db := by
      have hle : e.id ≤ entityIdsMax acc.db :=
        mem_le_foldr_max _ _ (List.mem_map_of_mem _ he)
      unfold freshEntityId
      omega
    exact processEntityWith_other today key transport acc.fetched
      { acc.db with entities :=
          acc.db.entities ++ [{ id := freshEntityId acc.db, name := nm }] }
      { id := freshEntityId acc.db, name := nm } nm e R
      (wf_append_fresh acc.db nm hwf hnm_new)
      (List.mem_append.mpr (Or.inl he)) hR hf
      (fun hideq => absurd hideq.symm (Nat.ne_of_lt hltfresh)) hne
  · rw [hfind]
    have he2mem : e2 ∈ acc.db.entities := List.mem_of_find?_eq_some hfind
    have he2nm : e2.name = nm := by
      have h := List.find?_some hfind
      simpa using h
    by_cases hnm : nm = e.name
    · have he2e : e2 = e := by
        obtain ⟨_, hnames⟩ := hwf
        exact List.inj_on_of_nodup_map hnames he2mem he (by rw [he2nm, hnm])
      subst he2e
      exact processEntityWith_self today key transport acc.fetched acc.db e2 nm R
        hwf he hR hf hRrow
    · have he2ne : e2 ≠ e := fun h => hnm (by rw [← he2nm, h])
      have hid_ne : e2.id ≠ e.id := by
        obtain ⟨hids, _⟩ := hwf
        intro hideq
        exact he2ne (List.inj_on_of_nodup_map hids he2mem he hideq)
      exact processEntityWith_other today key transport acc.fetched acc.db e2 nm e R
        hwf he hR hf hid_ne hnm

theorem foldl_processEntity_skip_invariant (today : Nat) (key : Option String)
    (transport : String → Except String Json) (e : EntityRow) (R : List ResultRow)
    (hRrow : ∃ r ∈ R, r.entity_id = e.id ∧ r.date = today) (L : List String) :
    ∀ acc : MainOutcome, acc.db.wf → e ∈ acc.db.entities →
      acc.db.results.filter (fun r => r.entity_id == e.id) = R → e.name ∉ acc.fetched →
      ((L.foldl (processEntity today key transport) acc).db.wf
       ∧ e ∈ (L.foldl (processEntity today key transport) acc).db.entities
       ∧ (L.foldl (processEntity today key transport) acc).db.results.filter
           (fun r => r.entity_id == e.id) = R
       ∧ e.name ∉ (L.foldl (processEntity today key transport) acc).fetched) := by
  induction L with
  | nil => intro acc h1 h2 h3 h4; exact ⟨h1, h2, h3, h4⟩
  | cons nm rest ih =>
    intro acc h1 h2 h3 h4
    simp only [List.foldl_cons]
    obtain ⟨g1, g2, g3, g4⟩ :=
      processEntity_skip_invariant today key transport e R nm acc hRrow h1 h2 h3 h4
    exact ih _ g1 g2 g3 g4

/-- C2: an entity that already has a result row for the current date is
skipped by the population flow: its stored rows are unchanged (no insert for
that entity) and no API fetch is issued for it. -/
theorem population_skips_existing_entity_day (key db_url : Option String)
    (transport : String → Except String Json) (db : DB) (today : Nat) (e : EntityRow)
    (hwf : db.wf) (he : e ∈ db.entities)
    (hrow : ∃ r ∈ db.results, r.entity_id = e.id ∧ r.date = today) :
    (main_populate key db_url transport db today).db.results.filter
        (fun r => r.entity_id == e.id)
      = db.results.filter (fun r => r.entity_id == e.id)
    ∧ e.name ∉ (main_populate key db_url transport db today).fetched := by
  rcases key with _ | k
  · exact ⟨rfl, List.not_mem_nil _⟩
  rcases db_url with _ | u
  · exact ⟨rfl, List.not_mem_nil _⟩
  have hRrow : ∃ r ∈ db.results.filter (fun r => r.entity_id == e.id),
      r.entity_id = e.id ∧ r.date = today := by
    obtain ⟨r, hrm, hre, hrd⟩ := hrow
    exact ⟨r, List.mem_filter.mpr ⟨hrm, by simp [hre]⟩, hre, hrd⟩
  have hmain : main_populate (some k) (some u) transport db today
      = ENTITIES.foldl (processEntity today (some k) transport)
          { db := { db with tablesCreated := true }, fetched := [] } := rfl
  have hfold := foldl_processEntity_skip_invariant today (some k) transport e
      (db.results.filter (fun r => r.entity_id == e.id)) hRrow ENTITIES
      ⟨{ db with tablesCreated := true }, []⟩ hwf he rfl (List.not_mem_nil _)
  rw [hmain]
  exact ⟨hfold.2.2.1, hfold.2.2.2⟩

/-- Witness for C2: entity ESPN with a stored row for day 100 is skipped by a
full population run. -/
theorem population_skips_existing_entity_day_witness :
    dbSkip.wf
    ∧ (⟨1, "ESPN"⟩ : EntityRow) ∈ dbSkip.entities
    ∧ (main_populate (some "k") (some "u") (fun _ => Except.error "down") dbSkip
          100).db.results.filter (fun r => r.entity_id == (1 : Nat))
        = dbSkip.results.filter (fun r => r.entity_id == (1 : Nat))
    ∧ "ESPN" ∉ (main_populate (some "k") (some "u") (fun _ => Except.error "down") dbSkip
          100).fetched :=
  by
  have hwf : dbSkip.wf := And.intro (by decide) (by decide)
  have hmem : (⟨1, "ESPN"⟩ : EntityRow) ∈ dbSkip.entities := by decide
  have hrow : ∃ r ∈ dbSkip.results,
      r.entity_id = (⟨1, "ESPN"⟩ : EntityRow).id ∧ r.date = 100 :=
    ⟨mkRow 1 (some 10) Json.null 100, List.mem_singleton.mpr rfl, rfl, rfl⟩
  obtain ⟨h1, h2⟩ := population_skips_existing_entity_day (some "k") (some "u")
    (fun _ => Except.error "down") dbSkip 100 ⟨1, "ESPN"⟩ hwf hmem hrow
  exact ⟨hwf, hmem, h1, h2⟩
